import Mathlib

/-!
Shallow embedding of the `libreofficekit` Rust crate (src/lib.rs, src/sys.rs,
src/urls.rs, src/error.rs) used to check the natural-language specification
against the code.

The native LibreOfficeKit engine is reached only through a function-pointer
table; its behaviour at each call site is therefore a parameter of the model
(whether a function-pointer slot is present, the engine's return value, and
the contents of the engine's single last-error slot after the call, with the
empty string meaning "no error", exactly as `OfficeRaw::get_error` treats it).
Each raw operation additionally returns the list of engine entry points it
invoked, in order, so that "without calling into the engine" is a statement
about an empty log.
-/

namespace LOK

/-- Embedding of `OfficeError` from src/error.rs (payloads kept where the
claims need them). -/
inductive OfficeError where
  | missingLibrary
  | missingLibraryHook
  | loadLibrary
  | officeError (msg : String)
  | missingFunction (name : String)
  | invalidFilterTypes
  | invalidVersionInfo
  | invalidUtf8String
  | invalidString
  | invalidPath
  | instanceLock
  | instanceDropped
  | unknownInit
deriving DecidableEq, Repr

/-- Environment of one `Office::new` call: every external outcome that decides
which branch of src/lib.rs lines 91-123 is taken. -/
structure NewEnv where
  /-- `install_path.is_absolute()` -/
  pathAbsolute : Bool
  /-- whether `std::fs::canonicalize` succeeds (consulted only when the path
  is not absolute) -/
  canonicalizeOk : Bool
  /-- whether `install_path.to_str()` yields `Some` (the path is valid UTF-8) -/
  pathUtf8 : Bool
  /-- whether the path bytes contain an embedded null (`CString::new` fails) -/
  pathHasNul : Bool
  /-- whether `lok_init_wrapper` returns a null pointer -/
  initNull : Bool
  /-- contents of the engine's last-error slot right after init; `""` means
  no error, as in `OfficeRaw::get_error` -/
  initErrorSlot : String
deriving DecidableEq, Repr

/-- Process-level state relevant to the instance gate: the
`GLOBAL_OFFICE_LOCK` atomic, the strong `Rc` count of the live `OfficeRaw`
(`0` when none is live), and how many times the engine's `destroy` hook has
been invoked. -/
structure OfficeSt where
  lock : Bool
  strong : Nat
  destroyCount : Nat
deriving DecidableEq, Repr

/-- Initial process state: gate free, no instance. -/
def initSt : OfficeSt := ⟨false, 0, 0⟩

/-- Embedding of `Office::new` (src/lib.rs lines 91-123).
`cfg` is the `destroy_on_drop` crate feature, which decides whether
`OfficeRaw::destroy` runs inside `impl Drop for OfficeRaw` (src/sys.rs lines
396-406); the drop of the local `raw` on the engine-reported-error path is the
only place it matters here. -/
def officeNew (cfg : Bool) (s : OfficeSt) (env : NewEnv) :
    OfficeSt × Except OfficeError Unit :=
  -- `GLOBAL_OFFICE_LOCK.swap(true)`: if it was already true, fail; either way
  -- the lock is true afterwards
  if s.lock then (s, .error .instanceLock)
  else
    let s := { s with lock := true }
    -- resolve non-absolute paths through canonicalize; `?` returns early
    if !env.pathAbsolute && !env.canonicalizeOk then (s, .error .invalidPath)
    -- `install_path.to_str().ok_or(InvalidPath)?`
    else if !env.pathUtf8 then (s, .error .invalidPath)
    -- `CString::new(install_path)?`
    else if env.pathHasNul then (s, .error .invalidString)
    -- `OfficeRaw::init`: null pointer → explicit unlock and `UnknownInit`
    else if env.initNull then ({ s with lock := false }, .error .unknownInit)
    -- `raw.get_error()` after init: a non-empty slot is an init error; the
    -- local `raw` is dropped, running `Drop for OfficeRaw` (destroy when the
    -- feature is on, then unconditional unlock)
    else if env.initErrorSlot ≠ "" then
      ({ s with lock := false,
                destroyCount := s.destroyCount + (if cfg then 1 else 0) },
       .error (.officeError env.initErrorSlot))
    else ({ s with strong := 1 }, .ok ())

/-- `Clone for Office`: bumps the strong `Rc` count, no gate interaction. -/
def cloneOffice (s : OfficeSt) : OfficeSt :=
  if s.strong = 0 then s else { s with strong := s.strong + 1 }

/-- Dropping one strong `Office` owner. When the last one goes,
`Drop for OfficeRaw` runs: `destroy` if the `destroy_on_drop` feature is on,
then `GLOBAL_OFFICE_LOCK.store(false)` unconditionally. -/
def dropOffice (cfg : Bool) (s : OfficeSt) : OfficeSt :=
  if s.strong = 0 then s
  else if s.strong = 1 then
    { s with strong := 0, lock := false,
             destroyCount := s.destroyCount + (if cfg then 1 else 0) }
  else { s with strong := s.strong - 1 }

/-- An environment in which every external step of construction succeeds. -/
def goodEnv (env : NewEnv) : Prop :=
  env.pathAbsolute = true ∧ env.pathUtf8 = true ∧ env.pathHasNul = false ∧
    env.initNull = false ∧ env.initErrorSlot = ""

instance (env : NewEnv) : Decidable (goodEnv env) := by
  unfold goodEnv; infer_instance

/-- A concrete fully-successful environment. -/
def okEnv : NewEnv :=
  { pathAbsolute := true, canonicalizeOk := true, pathUtf8 := true,
    pathHasNul := false, initNull := false, initErrorSlot := "" }

/-- `n` further clones of a live instance. -/
def cloneN : Nat → OfficeSt → OfficeSt
  | 0, s => s
  | n + 1, s => cloneN n (cloneOffice s)

/-- Dropping `n` strong owners in sequence. -/
def dropN (cfg : Bool) : Nat → OfficeSt → OfficeSt
  | 0, s => s
  | n + 1, s => dropN cfg n (dropOffice cfg s)

/-! ## Callback slot (src/sys.rs `register_callback`, `clear_callback`,
`free_callback`)

Heap pointers for the double-boxed callback closures are modelled as natural
numbers handed out by a bump allocator (`nextPtr`), mirroring
`Box::into_raw`'s guarantee that a live allocation's address is distinct from
every other live or previously freed allocation. `recorded` is the
`callback_data: Mutex<CallbackData>` field (`none` = null pointer);
`engineSlot` is which data pointer the engine's single callback registration
currently targets; `freed` logs every pointer passed back to
`Box::from_raw`, in order. -/
structure CbState where
  recorded : Option Nat
  engineSlot : Option Nat
  freed : List Nat
  nextPtr : Nat
deriving DecidableEq, Repr

/-- State right after `OfficeRaw::init`: `callback_data` is null and no
callback is registered with the engine. -/
def cbInit : CbState := ⟨none, none, [], 0⟩

/-- Embedding of `OfficeRaw::free_callback` (src/sys.rs lines 338-353): if
`callback_data` is non-null, swap it out and reclaim it with `Box::from_raw`. -/
def freeCallback (st : CbState) : CbState :=
  match st.recorded with
  | none => st
  | some q => { st with recorded := none, freed := st.freed ++ [q] }

/-- Embedding of `OfficeRaw::register_callback` (src/sys.rs lines 296-334).
`hasFn` is whether the `registerCallback` function-pointer slot is non-null;
`err` is the engine's last-error slot after the registration call (`""` = no
error). -/
def registerCallbackOp (st : CbState) (hasFn : Bool) (err : String) :
    CbState × Except OfficeError Unit :=
  -- `Box::into_raw(Box::new(Box::new(callback)))` allocates first
  let p := st.nextPtr
  let st := { st with nextPtr := st.nextPtr + 1 }
  if !hasFn then (st, .error (.missingFunction "registerCallback"))
  else
    -- `register_callback(self.this, Some(callback_shim), callback_ptr)`:
    -- the engine's single callback slot now targets the new pointer
    let st := { st with engineSlot := some p }
    -- `if let Some(error) = self.get_error()` — return before freeing
    if err ≠ "" then (st, .error (.officeError err))
    else
      -- `self.free_callback()` then `*self.callback_data.lock() = callback_ptr`
      let st := freeCallback st
      ({ st with recorded := some p }, .ok ())

/-- Embedding of `OfficeRaw::clear_callback` (src/sys.rs lines 279-294). -/
def clearCallbackOp (st : CbState) (hasFn : Bool) (err : String) :
    CbState × Except OfficeError Unit :=
  if !hasFn then (st, .error (.missingFunction "registerCallback"))
  else
    -- `register_callback(self.this, None, null_mut())`
    let st := { st with engineSlot := none }
    if err ≠ "" then (st, .error (.officeError err))
    else (freeCallback st, .ok ())

/-- One callback-lifecycle call issued by the application. -/
inductive CbOp where
  | register (hasFn : Bool) (err : String)
  | clear (hasFn : Bool) (err : String)

/-- State transition of one callback-lifecycle call. -/
def cbStep (st : CbState) : CbOp → CbState
  | .register h e => (registerCallbackOp st h e).1
  | .clear h e => (clearCallbackOp st h e).1

/-- States reachable by a sequence of `register_callback` / `clear_callback`
calls on one engine instance. -/
def cbRun (ops : List CbOp) : CbState := ops.foldl cbStep cbInit

/-- Allocator/ownership invariant of the callback slot: no pointer is ever
freed twice, the recorded pointer is live (never among the freed ones), and
every pointer the state mentions was handed out by the allocator. -/
def CbInv (st : CbState) : Prop :=
  st.freed.Nodup ∧
  (∀ q, st.recorded = some q → q < st.nextPtr ∧ q ∉ st.freed) ∧
  (∀ q ∈ st.freed, q < st.nextPtr)

/-! ## Callback dispatch trampoline (src/sys.rs `callback_shim`)

The user-supplied handler either returns normally or panics; `callback_shim`
wraps the call in `std::panic::catch_unwind` and discards the result, so what
crosses the foreign boundary is modelled by `ShimOutcome`. -/

/-- Outcome of running the user-supplied handler closure. -/
inductive HandlerResult where
  | ok
  | panicked (msg : String)
deriving DecidableEq, Repr

/-- What the C-ABI `callback_shim` invocation looks like from the engine's
side: whether a panic unwound out of the shim into foreign code, and whether
the handler ran to completion for this notification. -/
structure ShimOutcome where
  unwound : Bool
  handlerCompleted : Bool
deriving DecidableEq, Repr

/-- Embedding of `callback_shim` (src/sys.rs lines 301-310): invoke the boxed
handler under `catch_unwind`, discarding any caught panic
(`_ = std::panic::catch_unwind(...)`). -/
def callbackShim (handler : Int → String → HandlerResult)
    (ty : Int) (payload : String) : ShimOutcome :=
  match handler ty payload with
  | .ok => { unwound := false, handlerCompleted := true }
  | .panicked _ => { unwound := false, handlerCompleted := false }

/-- The engine call that emitted the notification: it resumes and returns
normally exactly when the shim did not unwind into it. -/
def engineCallReturnsNormally (handler : Int → String → HandlerResult)
    (ty : Int) (payload : String) : Bool :=
  !(callbackShim handler ty payload).unwound

/-! ## Function-table operations (src/sys.rs)

Each operation is parameterised by whether its function-pointer slot is
non-null (`hasFn`), the engine's return value where it has one, and the
contents of the engine's last-error slot after the call (`errAfter`, `""` =
no error). The first component of the result is the ordered list of engine
entry points the wrapper invoked. -/

/-- Embedding of `OfficeRaw::document_load` (src/sys.rs lines 167-181):
look up `documentLoad`, invoke it, then immediately poll `get_error`. -/
def documentLoadRaw (hasFn : Bool) (errAfter : String) :
    List String × Except OfficeError Unit :=
  if !hasFn then ([], .error (.missingFunction "documentLoad"))
  else if errAfter ≠ "" then
    (["documentLoad", "getError"], .error (.officeError errAfter))
  else (["documentLoad", "getError"], .ok ())

/-- Embedding of `OfficeRaw::set_document_password` (src/sys.rs lines
208-225): look up `setDocumentPassword`, invoke it, then poll `get_error`. -/
def setDocumentPasswordRaw (hasFn : Bool) (errAfter : String) :
    List String × Except OfficeError Unit :=
  if !hasFn then ([], .error (.missingFunction "setDocumentPassword"))
  else if errAfter ≠ "" then
    (["setDocumentPassword", "getError"], .error (.officeError errAfter))
  else (["setDocumentPassword", "getError"], .ok ())

/-- Embedding of `OfficeRaw::sign_document` (src/sys.rs lines 143-164):
look up `signDocument`, invoke it, and return `Ok(result)` directly — the
source contains no `get_error` poll for this operation. -/
def signDocumentRaw (hasFn : Bool) (ret : Bool) (errAfter : String) :
    List String × Except OfficeError Bool :=
  if !hasFn then ([], .error (.missingFunction "signDocument"))
  else (["signDocument"], .ok ret)

/-- Embedding of `DocumentRaw::get_document_type` (src/sys.rs lines 430-437):
look up `getDocumentType` and return its value — no `get_error` poll. -/
def getDocumentTypeRaw (hasFn : Bool) (ret : Int) (errAfter : String) :
    List String × Except OfficeError Int :=
  if !hasFn then ([], .error (.missingFunction "getDocumentType"))
  else (["getDocumentType"], .ok ret)

/-- Embedding of `OfficeRaw::run_macro` (src/sys.rs lines 261-276): look up
`runMacro`, invoke it, and poll `get_error` only when the engine returned 0. -/
def runMacroRaw (hasFn : Bool) (ret : Int) (errAfter : String) :
    List String × Except OfficeError Bool :=
  if !hasFn then ([], .error (.missingFunction "runMacro"))
  else if ret = 0 then
    if errAfter ≠ "" then (["runMacro", "getError"], .error (.officeError errAfter))
    else (["runMacro", "getError"], .ok false)
  else (["runMacro"], .ok true)

/-! ## Weak handles (src/lib.rs `CallbackOffice`)

`CallbackOffice` holds a `Weak<sys::OfficeRaw>`; `Weak::upgrade` succeeds
exactly while the strong `Rc` count is non-zero. -/

/-- Whether a given string contains an embedded null byte
(`CString::new` fails exactly then). -/
def hasNulByte (s : String) : Bool := s.toList.contains (Char.ofNat 0)

/-- `Weak::upgrade` on the `Weak<OfficeRaw>` inside a `CallbackOffice`:
succeeds iff at least one strong owner is still alive. -/
def weakUpgrade (strong : Nat) : Bool := strong != 0

/-- Embedding of `CallbackOffice::into_office` (src/lib.rs lines 50-54). -/
def intoOffice (strong : Nat) : Except OfficeError Unit :=
  if weakUpgrade strong then .ok () else .error .instanceDropped

/-- Embedding of `CallbackOffice::set_document_password` (src/lib.rs lines
66-86): upgrade the weak reference, build the `CString` when a password is
supplied, then call `OfficeRaw::set_document_password` (null pointer for
`None`). -/
def cbSetDocumentPassword (strong : Nat) (password : Option String)
    (hasFn : Bool) (errAfter : String) :
    List String × Except OfficeError Unit :=
  if !weakUpgrade strong then ([], .error .instanceDropped)
  else
    match password with
    | some value =>
      if hasNulByte value then ([], .error .invalidString)
      else setDocumentPasswordRaw hasFn errAfter
    | none => setDocumentPasswordRaw hasFn errAfter

/-! ## Document URLs and null-byte rejection (src/urls.rs, src/lib.rs) -/

/-- `Path::is_absolute` for the Unix paths this crate targets: the path
starts with the root separator. -/
def isAbsolutePath (p : String) : Bool :=
  match p.toList with
  | [] => false
  | c :: _ => c = '/'

/-- Embedding of `DocUrl::from_absolute_path` (src/urls.rs lines 32-48).
`urlFromFilePath` abstracts the external `url::Url::from_file_path`
collaborator (`none` = conversion failure); the branch structure and every
error value are transcribed from the source. -/
def fromAbsolutePath (urlFromFilePath : String → Option String)
    (value : String) : Except OfficeError String :=
  if !isAbsolutePath value then
    .error (.officeError ("The file path " ++ value ++ " must be absolute!"))
  else
    match urlFromFilePath value with
    | none => .error (.officeError ("failed to parse url " ++ value))
    | some u =>
      if hasNulByte u then .error .invalidString
      else .ok u

/-- Embedding of `Office::document_load_with_options` (src/lib.rs lines
267-275): `CString::new(options)?` runs before any engine call, then the raw
load-with-options operation follows the standard poll protocol
(src/sys.rs lines 184-202). -/
def documentLoadWithOptions (options : String) (hasFn : Bool)
    (errAfter : String) : List String × Except OfficeError Unit :=
  if hasNulByte options then ([], .error .invalidString)
  else if !hasFn then ([], .error (.missingFunction "documentLoadWithOptions"))
  else if errAfter ≠ "" then
    (["documentLoadWithOptions", "getError"], .error (.officeError errAfter))
  else (["documentLoadWithOptions", "getError"], .ok ())

/-! ## ProductVersion (src/lib.rs lines 559-664)

Strings are handled as `List Char` so that the `Display` formatter and the
`FromStr` parser can be related by structural induction. Rust's
`u32::from_str` accepts an optional leading `+`, requires at least one digit,
and rejects values above `u32::MAX`. -/

/-- `ProductVersion { major, minor }`; the `u32` fields are naturals, with
the `< 2^32` range imposed where the source's types impose it. -/
structure ProductVersion where
  major : Nat
  minor : Nat
deriving DecidableEq, Repr

/-- 2^32, the number of `u32` values. -/
def u32Bound : Nat := 4294967296

/-- Core of decimal formatting: emit the digits of `n` (most significant
first) in front of `acc`. Fuel-indexed so it shares recursion structure with
its length function; `natToDec` supplies enough fuel. -/
def toDecCore : Nat → Nat → List Char → List Char
  | 0, _, acc => acc
  | fuel + 1, n, acc =>
    let c := Char.ofNat (48 + n % 10)
    if n < 10 then c :: acc
    else toDecCore fuel (n / 10) (c :: acc)

/-- Rust's `{}` formatting of an unsigned integer: its decimal digits. -/
def natToDec (n : Nat) : List Char := toDecCore (n + 1) n []

/-- Number of decimal digits `toDecCore` emits for `n` with the given fuel. -/
def decLenCore : Nat → Nat → Nat
  | 0, _ => 0
  | fuel + 1, n => if n < 10 then 1 else decLenCore fuel (n / 10) + 1

/-- Embedding of `Display for ProductVersion` (src/lib.rs lines 643-647):
`write!(f, "{}.{}", self.major, self.minor)`. -/
def displayProductVersion (v : ProductVersion) : List Char :=
  natToDec v.major ++ '.' :: natToDec v.minor

/-- `str::split_once('.')`: split at the first `'.'`, or `none` when the
separator is absent. -/
def splitOnceDot : List Char → Option (List Char × List Char)
  | [] => none
  | c :: cs =>
    if c = '.' then some ([], cs)
    else
      match splitOnceDot cs with
      | none => none
      | some (a, b) => some (c :: a, b)

/-- Numeric value of an ASCII digit character, if it is one. -/
def digitVal (c : Char) : Option Nat :=
  if 48 ≤ c.toNat ∧ c.toNat ≤ 57 then some (c.toNat - 48) else none

/-- Left fold of decimal digits; fails on the first non-digit character. -/
def parseDigitsAcc : List Char → Nat → Option Nat
  | [], acc => some acc
  | c :: cs, acc =>
    match digitVal c with
    | some d => parseDigitsAcc cs (acc * 10 + d)
    | none => none

/-- The optional leading `+` sign Rust's unsigned parser accepts. -/
def stripPlus : List Char → List Char
  | [] => []
  | c :: rest => if c = '+' then rest else c :: rest

/-- Rust's `u32::from_str`: optional `+`, at least one digit, all digits,
value within `u32` range. -/
def parseU32 (l : List Char) : Option Nat :=
  let l' := stripPlus l
  if l' = [] then none
  else
    match parseDigitsAcc l' 0 with
    | some n => if n < u32Bound then some n else none
    | none => none

/-- The single structured parse error `InvalidProductVersion`
(src/lib.rs lines 649-651). -/
inductive InvalidProductVersion where
  | invalid
deriving DecidableEq, Repr

/-- Embedding of `FromStr for ProductVersion` (src/lib.rs lines 653-664):
`split_once('.')` then parse both components as `u32`, mapping every failure
to `InvalidProductVersion`. Total — no panicking path exists. -/
def productVersionFromStr (s : List Char) :
    Except InvalidProductVersion ProductVersion :=
  match splitOnceDot s with
  | none => .error .invalid
  | some (a, b) =>
    match parseU32 a with
    | none => .error .invalid
    | some major =>
      match parseU32 b with
      | none => .error .invalid
      | some minor => .ok ⟨major, minor⟩

/-! ## Lifecycle helper lemmas -/

/-- Cloning `n` times just raises the strong count by `n`. -/
lemma cloneN_eq (n : Nat) (s : OfficeSt) (h : s.strong ≠ 0) :
    cloneN n s = { s with strong := s.strong + n } := by
  induction n generalizing s with
  | zero => simp [cloneN]
  | succ n ih =>
    have hc : cloneOffice s = { s with strong := s.strong + 1 } := by
      simp [cloneOffice, h]
    rw [cloneN, hc, ih _ (by simp)]
    have : s.strong + 1 + n = s.strong + (n + 1) := by omega
    simp only [this]

/-- Dropping all `k + 1` strong owners zeroes the count, releases the gate,
and bumps the destroy count exactly when `destroy_on_drop` is enabled. -/
lemma dropN_eq (cfg : Bool) (k : Nat) (s : OfficeSt) (h : s.strong = k + 1) :
    dropN cfg (k + 1) s =
      { s with strong := 0, lock := false,
               destroyCount := s.destroyCount + (if cfg then 1 else 0) } := by
  induction k generalizing s with
  | zero =>
    rw [dropN, dropN]
    simp [dropOffice, h]
  | succ k ih =>
    have hd : dropOffice cfg s = { s with strong := k + 1 } := by
      simp [dropOffice, h]
    rw [dropN, hd, ih _ (by simp)]

/-! ## Claim theorems: instance gate and lifecycle -/

/-- C1: the claim says every failure path of `Office::new` (other than the
instance-lock path) leaves `GLOBAL_OFFICE_LOCK` false. The code violates
this: a canonicalization failure (and likewise the non-UTF-8 and
embedded-null paths) returns through `?` without releasing the gate, so the
gate stays `true` and every subsequent `Office::new` — even with a fully
valid environment — fails with `InstanceLock` forever. -/
theorem c1_gate_leaked_on_path_failure : ∀ cfg : Bool,
    (officeNew cfg initSt
        ⟨false, false, true, false, false, ""⟩).2 = .error .invalidPath ∧
    (officeNew cfg initSt
        ⟨false, false, true, false, false, ""⟩).1.lock = true ∧
    (officeNew cfg
        (officeNew cfg initSt ⟨false, false, true, false, false, ""⟩).1
        okEnv).2 = .error .instanceLock := by
  intro cfg
  cases cfg <;> exact ⟨rfl, rfl, rfl⟩

/-- C2: while the gate is claimed, `Office::new` fails with `InstanceLock`
and changes nothing; once the last strong owner is dropped the gate is
released and a construction in a healthy environment succeeds again. -/
theorem c2_instance_exclusivity : ∀ (cfg : Bool) (s : OfficeSt) (env : NewEnv),
    (s.lock = true → officeNew cfg s env = (s, .error .instanceLock)) ∧
    (s.strong = 1 →
      (dropOffice cfg s).lock = false ∧
      (goodEnv env → (officeNew cfg (dropOffice cfg s) env).2 = .ok ())) := by
  intro cfg s env
  refine ⟨fun h => by simp [officeNew, h], fun h1 => ?_⟩
  have hd : dropOffice cfg s =
      { s with strong := 0, lock := false,
               destroyCount := s.destroyCount + (if cfg then 1 else 0) } := by
    simp [dropOffice, h1]
  refine ⟨by rw [hd], fun hg => ?_⟩
  obtain ⟨ha, hu, hn, hi, he⟩ := hg
  rw [hd]
  simp [officeNew, ha, hu, hn, hi, he]

/-- Witness for C2 at a concrete claimed state with one strong owner. -/
theorem c2_instance_exclusivity_witness :
    officeNew false ⟨true, 1, 0⟩ okEnv = (⟨true, 1, 0⟩, .error .instanceLock) ∧
    (dropOffice false ⟨true, 1, 0⟩).lock = false ∧
    (officeNew false (dropOffice false ⟨true, 1, 0⟩) okEnv).2 = .ok () := by
  have h := c2_instance_exclusivity false ⟨true, 1, 0⟩ okEnv
  exact ⟨h.1 rfl, (h.2 rfl).1, (h.2 rfl).2 (by decide)⟩

/-- C3 counterexample: with the `destroy_on_drop` feature disabled, an
instance becomes active (`Office::new` returns `Ok`) and its only strong
owner is dropped, yet the engine's destroy hook is invoked zero times over
the whole lifetime — no explicit destroy path exists in the crate's API —
while the gate is still released. "Exactly one of the two, never neither"
fails. -/
theorem c3_counterexample :
    (officeNew false initSt okEnv).2 = .ok () ∧
    (dropOffice false (officeNew false initSt okEnv).1).strong = 0 ∧
    (dropOffice false (officeNew false initSt okEnv).1).destroyCount = 0 ∧
    (dropOffice false (officeNew false initSt okEnv).1).lock = false :=
  ⟨rfl, rfl, rfl, rfl⟩

/-- C3 (amended): over the full lifetime of an active instance (one owner,
`n` clones, all `n + 1` owners dropped), the destroy hook is invoked exactly
once when the `destroy_on_drop` feature is enabled and zero times when it is
disabled, and the instance gate is released at final teardown in both
cases. -/
theorem c3_destroy_once_iff_destroy_on_drop :
    ∀ (cfg : Bool) (n : Nat) (s : OfficeSt),
    s.strong = 1 →
    (dropN cfg (n + 1) (cloneN n s)).destroyCount =
      s.destroyCount + (if cfg then 1 else 0) ∧
    (dropN cfg (n + 1) (cloneN n s)).lock = false ∧
    (dropN cfg (n + 1) (cloneN n s)).strong = 0 := by
  intro cfg n s h
  have hc : cloneN n s = { s with strong := n + 1 } := by
    rw [cloneN_eq n s (by omega)]
    simp [h, Nat.add_comm]
  rw [hc, dropN_eq cfg n _ (by simp)]
  simp

/-- Witness for C3 (amended): one clone, feature enabled — exactly one
destroy invocation and a released gate. -/
theorem c3_destroy_once_witness :
    (dropN true 2 (cloneN 1 ⟨true, 1, 0⟩)).destroyCount = 1 ∧
    (dropN true 2 (cloneN 1 ⟨true, 1, 0⟩)).lock = false ∧
    (dropN true 2 (cloneN 1 ⟨true, 1, 0⟩)).strong = 0 := by
  have h := c3_destroy_once_iff_destroy_on_drop true 1 ⟨true, 1, 0⟩ rfl
  simpa using h

/-! ## Claim theorems: weak handles and callbacks -/

/-- C4: once the last strong owner is gone, both `CallbackOffice::into_office`
and `CallbackOffice::set_document_password` fail with `InstanceDropped` and
issue no engine call (empty invocation log); while a strong owner remains,
the `Weak::upgrade` inside them succeeds and they never report
`InstanceDropped`. -/
theorem c4_weak_handle_fails_cleanly :
    ∀ (strong : Nat) (password : Option String) (hasFn : Bool) (errAfter : String),
    (strong = 0 →
      intoOffice strong = .error .instanceDropped ∧
      cbSetDocumentPassword strong password hasFn errAfter =
        ([], .error .instanceDropped)) ∧
    (0 < strong →
      weakUpgrade strong = true ∧
      intoOffice strong = .ok () ∧
      (cbSetDocumentPassword strong password hasFn errAfter).2 ≠
        .error .instanceDropped) := by
  intro strong password hasFn errAfter
  constructor
  · rintro rfl
    exact ⟨rfl, rfl⟩
  · intro h
    have hw : weakUpgrade strong = true := by
      simp only [weakUpgrade, bne_iff_ne]
      omega
    refine ⟨hw, by simp [intoOffice, hw], ?_⟩
    simp only [cbSetDocumentPassword, hw, Bool.not_true, Bool.false_eq_true,
      if_false]
    cases password with
    | none =>
      unfold setDocumentPasswordRaw
      split_ifs <;> simp
    | some v =>
      by_cases hv : hasNulByte v
      · simp [hv]
      · simp only [hv, Bool.false_eq_true, if_false]
        unfold setDocumentPasswordRaw
        split_ifs <;> simp

/-- Witness for C4 at strong counts 0 and 1. -/
theorem c4_weak_handle_witness :
    intoOffice 0 = .error .instanceDropped ∧
    cbSetDocumentPassword 0 (some "secret") true "" =
      ([], .error .instanceDropped) ∧
    weakUpgrade 1 = true ∧
    intoOffice 1 = .ok () := by
  have h0 := (c4_weak_handle_fails_cleanly 0 (some "secret") true "").1 rfl
  have h1 := (c4_weak_handle_fails_cleanly 1 (some "secret") true "").2
    (by omega)
  exact ⟨h0.1, h0.2, h1.1, h1.2.1⟩

/-- C6: for every handler and notification, `callback_shim` catches a panic
raised in the handler at the foreign boundary: nothing unwinds out of the
shim, the engine call that triggered the notification returns normally, and
a panicking handler merely fails to complete that one notification. -/
theorem c6_panic_caught_at_boundary :
    ∀ (handler : Int → String → HandlerResult) (ty : Int) (payload : String),
    (callbackShim handler ty payload).unwound = false ∧
    engineCallReturnsNormally handler ty payload = true ∧
    (∀ msg, handler ty payload = .panicked msg →
      (callbackShim handler ty payload).handlerCompleted = false) := by
  intro handler ty payload
  cases hh : handler ty payload <;>
    simp [callbackShim, engineCallReturnsNormally, hh]

/-- Witness for C6 with a handler that always panics. -/
theorem c6_panic_caught_witness :
    (callbackShim (fun _ _ => .panicked "boom") 0 "evt").unwound = false ∧
    engineCallReturnsNormally (fun _ _ => .panicked "boom") 0 "evt" = true ∧
    (callbackShim (fun _ _ => .panicked "boom") 0 "evt").handlerCompleted
      = false := by
  have h := c6_panic_caught_at_boundary (fun _ _ => .panicked "boom") 0 "evt"
  exact ⟨h.1, h.2.1, h.2.2 "boom" rfl⟩

/-- C10: when the engine's registration call inside `clear_callback` or
`register_callback` reports an error, the operation returns exactly that
engine error, the recorded callback pointer is unchanged, and nothing is
freed. -/
theorem c10_callback_atomic_on_engine_error :
    ∀ (st : CbState) (e : String), e ≠ "" →
    (clearCallbackOp st true e).2 = .error (.officeError e) ∧
    (clearCallbackOp st true e).1.recorded = st.recorded ∧
    (clearCallbackOp st true e).1.freed = st.freed ∧
    (registerCallbackOp st true e).2 = .error (.officeError e) ∧
    (registerCallbackOp st true e).1.recorded = st.recorded ∧
    (registerCallbackOp st true e).1.freed = st.freed := by
  intro st e he
  simp [clearCallbackOp, registerCallbackOp, he]

/-- Witness for C10: a state with a live recorded handler and an engine that
rejects the registration call. -/
theorem c10_callback_atomic_witness :
    (clearCallbackOp ⟨some 0, some 0, [], 1⟩ true "fail").2 =
      .error (.officeError "fail") ∧
    (clearCallbackOp ⟨some 0, some 0, [], 1⟩ true "fail").1.recorded = some 0 ∧
    (clearCallbackOp ⟨some 0, some 0, [], 1⟩ true "fail").1.freed = [] ∧
    (registerCallbackOp ⟨some 0, some 0, [], 1⟩ true "fail").2 =
      .error (.officeError "fail") ∧
    (registerCallbackOp ⟨some 0, some 0, [], 1⟩ true "fail").1.recorded =
      some 0 ∧
    (registerCallbackOp ⟨some 0, some 0, [], 1⟩ true "fail").1.freed = [] :=
  c10_callback_atomic_on_engine_error ⟨some 0, some 0, [], 1⟩ "fail"
    (by decide)

/-! ## Callback-slot invariant -/

/-- The invariant holds in the post-init state. -/
lemma cbInv_init : CbInv cbInit := by
  refine ⟨List.nodup_nil, ?_, ?_⟩ <;> simp [cbInit]

/-- A fresh `Nodup` tail: appending a single element not already present. -/
lemma nodup_append_singleton {l : List Nat} {q : Nat}
    (nd : l.Nodup) (hq : q ∉ l) : (l ++ [q]).Nodup := by
  rw [List.nodup_append]
  refine ⟨nd, List.nodup_singleton _, ?_⟩
  intro a ha hb
  simp only [List.mem_singleton] at hb
  subst hb
  exact hq ha

/-- Successful registration with no previously recorded handler. -/
lemma registerCallbackOp_ok_none (st : CbState) (h : st.recorded = none) :
    registerCallbackOp st true "" =
      ({ recorded := some st.nextPtr, engineSlot := some st.nextPtr,
         freed := st.freed, nextPtr := st.nextPtr + 1 }, .ok ()) := by
  unfold registerCallbackOp freeCallback
  simp [h]

/-- Successful registration replacing a previously recorded handler `q`. -/
lemma registerCallbackOp_ok_some (st : CbState) (q : Nat)
    (h : st.recorded = some q) :
    registerCallbackOp st true "" =
      ({ recorded := some st.nextPtr, engineSlot := some st.nextPtr,
         freed := st.freed ++ [q], nextPtr := st.nextPtr + 1 }, .ok ()) := by
  unfold registerCallbackOp freeCallback
  simp [h]

/-- Registration when the engine reports an error. -/
lemma registerCallbackOp_err (st : CbState) (e : String) (he : e ≠ "") :
    registerCallbackOp st true e =
      ({ st with engineSlot := some st.nextPtr, nextPtr := st.nextPtr + 1 },
       .error (.officeError e)) := by
  unfold registerCallbackOp
  simp [he]

/-- Registration when the `registerCallback` slot is null. -/
lemma registerCallbackOp_nofn (st : CbState) (e : String) :
    registerCallbackOp st false e =
      ({ st with nextPtr := st.nextPtr + 1 },
       .error (.missingFunction "registerCallback")) := by
  unfold registerCallbackOp
  simp

/-- Successful clearing with no recorded handler. -/
lemma clearCallbackOp_ok_none (st : CbState) (h : st.recorded = none) :
    clearCallbackOp st true "" = ({ st with engineSlot := none }, .ok ()) := by
  unfold clearCallbackOp freeCallback
  simp [h]

/-- Successful clearing of a recorded handler `q`. -/
lemma clearCallbackOp_ok_some (st : CbState) (q : Nat)
    (h : st.recorded = some q) :
    clearCallbackOp st true "" =
      ({ st with recorded := none, engineSlot := none,
                 freed := st.freed ++ [q] }, .ok ()) := by
  unfold clearCallbackOp freeCallback
  simp [h]

/-- Clearing when the engine reports an error. -/
lemma clearCallbackOp_err (st : CbState) (e : String) (he : e ≠ "") :
    clearCallbackOp st true e =
      ({ st with engineSlot := none }, .error (.officeError e)) := by
  unfold clearCallbackOp
  simp [he]

/-- Clearing when the `registerCallback` slot is null. -/
lemma clearCallbackOp_nofn (st : CbState) (e : String) :
    clearCallbackOp st false e =
      (st, .error (.missingFunction "registerCallback")) := by
  unfold clearCallbackOp
  simp

/-- One `register_callback` / `clear_callback` call preserves the
allocator/ownership invariant. -/
lemma cbInv_step (st : CbState) (op : CbOp) (h : CbInv st) :
    CbInv (cbStep st op) := by
  obtain ⟨nd, hrec, hbound⟩ := h
  cases op with
  | register hasFn e =>
    show CbInv (registerCallbackOp st hasFn e).1
    cases hasFn with
    | false =>
      rw [registerCallbackOp_nofn]
      simp only [CbInv]
      exact ⟨nd, fun q hq => ⟨by have := (hrec q hq).1; omega, (hrec q hq).2⟩,
        fun q hq => by have := hbound q hq; omega⟩
    | true =>
      by_cases he : e = ""
      · subst he
        cases hq : st.recorded with
        | none =>
          rw [registerCallbackOp_ok_none st hq]
          simp only [CbInv]
          refine ⟨nd, ?_, fun q hq' => by have := hbound q hq'; omega⟩
          intro q hq'
          simp only [Option.some.injEq] at hq'
          subst hq'
          exact ⟨by omega, fun hmem => by have := hbound _ hmem; omega⟩
        | some q0 =>
          rw [registerCallbackOp_ok_some st q0 hq]
          simp only [CbInv]
          refine ⟨?_, ?_, ?_⟩
          · exact nodup_append_singleton nd (hrec q0 hq).2
          · intro q hq'
            simp only [Option.some.injEq] at hq'
            subst hq'
            refine ⟨by omega, fun hmem => ?_⟩
            rcases List.mem_append.mp hmem with hmem | hmem
            · have := hbound _ hmem; omega
            · simp only [List.mem_singleton] at hmem
              subst hmem
              have := (hrec _ hq).1
              omega
          · intro q hmem
            rcases List.mem_append.mp hmem with hmem | hmem
            · have := hbound _ hmem; omega
            · simp only [List.mem_singleton] at hmem
              subst hmem
              have := (hrec _ hq).1
              omega
      · rw [registerCallbackOp_err st e he]
        simp only [CbInv]
        exact ⟨nd, fun q hq => ⟨by have := (hrec q hq).1; omega, (hrec q hq).2⟩,
          fun q hq => by have := hbound q hq; omega⟩
  | clear hasFn e =>
    show CbInv (clearCallbackOp st hasFn e).1
    cases hasFn with
    | false =>
      rw [clearCallbackOp_nofn]
      simp only [CbInv]
      exact ⟨nd, hrec, hbound⟩
    | true =>
      by_cases he : e = ""
      · subst he
        cases hq : st.recorded with
        | none =>
          rw [clearCallbackOp_ok_none st hq]
          simp only [CbInv]
          exact ⟨nd, hrec, hbound⟩
        | some q0 =>
          rw [clearCallbackOp_ok_some st q0 hq]
          simp only [CbInv]
          refine ⟨nodup_append_singleton nd (hrec q0 hq).2, by simp, ?_⟩
          intro q hmem
          rcases List.mem_append.mp hmem with hmem | hmem
          · exact hbound _ hmem
          · simp only [List.mem_singleton] at hmem
            subst hmem
            exact (hrec _ hq).1
      · rw [clearCallbackOp_err st e he]
        simp only [CbInv]
        exact ⟨nd, hrec, hbound⟩

/-- The invariant holds in every state reachable by a sequence of callback
registration/clearing calls. -/
lemma cbInv_run (ops : List CbOp) : CbInv (cbRun ops) := by
  suffices h : ∀ st, CbInv st → CbInv (ops.foldl cbStep st) from
    h cbInit cbInv_init
  induction ops with
  | nil => exact fun st h => h
  | cons op ops ih =>
    intro st h
    exact ih _ (cbInv_step st op h)

/-- C5: after any sequence of callback calls left handler `q` recorded, a
successful re-registration (engine reports no error) frees `q` exactly once
(it is appended to the free log, in which it now occurs exactly once),
records the fresh pointer, and leaves the engine's callback slot targeting
the fresh pointer — so the old handler is no longer invocable; and when the
engine reports an error for the registration call, nothing is freed at all,
so the free happens only after the engine has reported no error. -/
theorem c5_replacement_frees_old_exactly_once :
    ∀ (ops : List CbOp) (q : Nat),
    (cbRun ops).recorded = some q →
    (registerCallbackOp (cbRun ops) true "").2 = .ok () ∧
    (registerCallbackOp (cbRun ops) true "").1.freed = (cbRun ops).freed ++ [q] ∧
    ((registerCallbackOp (cbRun ops) true "").1.freed).count q = 1 ∧
    (registerCallbackOp (cbRun ops) true "").1.recorded =
      some (cbRun ops).nextPtr ∧
    (registerCallbackOp (cbRun ops) true "").1.engineSlot =
      some (cbRun ops).nextPtr ∧
    (cbRun ops).nextPtr ≠ q ∧
    (∀ e, e ≠ "" → (registerCallbackOp (cbRun ops) true e).1.freed =
      (cbRun ops).freed) := by
  intro ops q hq
  obtain ⟨nd, hrec, hbound⟩ := cbInv_run ops
  obtain ⟨hlt, hnotin⟩ := hrec q hq
  rw [registerCallbackOp_ok_some _ q hq]
  refine ⟨rfl, rfl, ?_, rfl, rfl, by omega, ?_⟩
  · dsimp only
    rw [List.count_append, List.count_eq_zero.mpr hnotin]
    simp
  · intro e he
    rw [registerCallbackOp_err _ e he]

/-- Witness for C5: register once, then register again successfully. -/
theorem c5_replacement_witness :
    (registerCallbackOp (cbRun [CbOp.register true ""]) true "").2 = .ok () ∧
    (registerCallbackOp (cbRun [CbOp.register true ""]) true "").1.freed
      = [0] ∧
    (registerCallbackOp (cbRun [CbOp.register true ""]) true "").1.recorded
      = some 1 ∧
    (registerCallbackOp (cbRun [CbOp.register true ""]) true "").1.engineSlot
      = some 1 := by
  have h := c5_replacement_frees_old_exactly_once [CbOp.register true ""] 0 rfl
  refine ⟨h.1, ?_, ?_, ?_⟩
  · rw [h.2.1]; rfl
  · rw [h.2.2.2.1]; rfl
  · rw [h.2.2.2.2.1]; rfl

/-! ## Claim theorems: error-polling protocol -/

/-- C7 counterexample: `OfficeRaw::sign_document` is an operation calling
through the function table, the engine's last-error slot is non-empty after
the call, yet the wrapper returns `Ok` and never issues a `getError` poll —
the claim's part (2) fails on this operation. -/
theorem c7_counterexample :
    (signDocumentRaw true true "engine failure").2 = .ok true ∧
    (signDocumentRaw true true "engine failure").2 ≠
      .error (.officeError "engine failure") ∧
    "getError" ∉ (signDocumentRaw true true "engine failure").1 := by
  refine ⟨rfl, by simp [signDocumentRaw], by simp [signDocumentRaw]⟩

/-- C7 (amended): every modelled function-table operation returns
`MissingFunction` on a null slot without invoking anything; `document_load`
and `set_document_password` poll `get_error` immediately after invoking and
surface any non-empty message; but `sign_document` and
`DocumentRaw::get_document_type` return the engine's value without any error
poll, and `run_macro` polls only when the engine returned 0. -/
theorem c7_null_slot_and_selective_polling :
    ∀ (ret : Bool) (retI : Int) (e : String),
    -- (1) null slot → missing-function error, nothing invoked
    (documentLoadRaw false e = ([], .error (.missingFunction "documentLoad"))) ∧
    (setDocumentPasswordRaw false e =
      ([], .error (.missingFunction "setDocumentPassword"))) ∧
    (signDocumentRaw false ret e =
      ([], .error (.missingFunction "signDocument"))) ∧
    (getDocumentTypeRaw false retI e =
      ([], .error (.missingFunction "getDocumentType"))) ∧
    (runMacroRaw false retI e = ([], .error (.missingFunction "runMacro"))) ∧
    -- (2) conforming operations poll immediately and surface the message
    (e ≠ "" → documentLoadRaw true e =
      (["documentLoad", "getError"], .error (.officeError e))) ∧
    (e = "" → documentLoadRaw true e = (["documentLoad", "getError"], .ok ())) ∧
    (e ≠ "" → setDocumentPasswordRaw true e =
      (["setDocumentPassword", "getError"], .error (.officeError e))) ∧
    -- non-conforming operations: value returned, no poll
    (signDocumentRaw true ret e = (["signDocument"], .ok ret)) ∧
    (getDocumentTypeRaw true retI e = (["getDocumentType"], .ok retI)) ∧
    -- run_macro polls only on a zero return
    (e ≠ "" → runMacroRaw true 0 e =
      (["runMacro", "getError"], .error (.officeError e))) ∧
    (retI ≠ 0 → runMacroRaw true retI e = (["runMacro"], .ok true)) := by
  intro ret retI e
  refine ⟨rfl, rfl, rfl, rfl, rfl, ?_, ?_, ?_, rfl, rfl, ?_, ?_⟩
  · intro he; simp [documentLoadRaw, he]
  · intro he; simp [documentLoadRaw, he]
  · intro he; simp [setDocumentPasswordRaw, he]
  · intro he; simp [runMacroRaw, he]
  · intro hr; simp [runMacroRaw, hr]

/-- Witness for C7 (amended) at concrete inputs. -/
theorem c7_selective_polling_witness :
    documentLoadRaw false "x" = ([], .error (.missingFunction "documentLoad")) ∧
    documentLoadRaw true "boom" =
      (["documentLoad", "getError"], .error (.officeError "boom")) ∧
    documentLoadRaw true "" = (["documentLoad", "getError"], .ok ()) ∧
    signDocumentRaw true false "boom" = (["signDocument"], .ok false) ∧
    runMacroRaw true 0 "boom" =
      (["runMacro", "getError"], .error (.officeError "boom")) ∧
    runMacroRaw true 7 "boom" = (["runMacro"], .ok true) := by
  have h := c7_null_slot_and_selective_polling false 7 "boom"
  have h0 := c7_null_slot_and_selective_polling false 7 "x"
  have he := c7_null_slot_and_selective_polling false 7 ""
  refine ⟨h0.1, ?_, ?_, ?_, ?_, ?_⟩
  · exact h.2.2.2.2.2.1 (by decide)
  · exact he.2.2.2.2.2.2.1 rfl
  · exact h.2.2.2.2.2.2.2.2.1
  · have := c7_null_slot_and_selective_polling false 0 "boom"
    exact this.2.2.2.2.2.2.2.2.2.2.1 (by decide)
  · exact h.2.2.2.2.2.2.2.2.2.2.2 (by decide)

/-! ## Claim theorems: invalid input -/

/-- C9 counterexample: `DocUrl::from_absolute_path` on the non-absolute path
`"./src"` (for any embedding of the URL collaborator) fails not with an
invalid-input kind (`InvalidString` / `InvalidPath`) but with the
engine-message kind `OfficeError::OfficeError` carrying a formatted string —
contradicting "fails with the invalid-input error kind (rather than any
other error kind)". -/
theorem c9_counterexample :
    fromAbsolutePath (fun s => some ("file://" ++ s)) "./src" =
      .error (.officeError "The file path ./src must be absolute!") ∧
    fromAbsolutePath (fun s => some ("file://" ++ s)) "./src" ≠
      .error .invalidString ∧
    fromAbsolutePath (fun s => some ("file://" ++ s)) "./src" ≠
      .error .invalidPath := by
  have h : fromAbsolutePath (fun s => some ("file://" ++ s)) "./src" =
      .error (.officeError "The file path ./src must be absolute!") := rfl
  refine ⟨h, ?_, ?_⟩ <;> rw [h] <;> simp

/-- C9 (amended): a caller-supplied string containing an embedded null byte
makes the operation fail with the invalid-input error (`InvalidString`)
before any engine call (empty invocation log); a non-absolute path given to
`DocUrl::from_absolute_path` fails without producing a `DocUrl`, but with the
engine-message error kind (`OfficeError::OfficeError` and the "must be
absolute" text), not an invalid-input kind. -/
theorem c9_nul_rejected_path_kind_mismatch :
    ∀ (options : String) (hasFn : Bool) (e : String)
      (urlF : String → Option String) (path : String),
    (hasNulByte options = true →
      documentLoadWithOptions options hasFn e = ([], .error .invalidString)) ∧
    (isAbsolutePath path = false →
      fromAbsolutePath urlF path =
        .error (.officeError ("The file path " ++ path ++
          " must be absolute!"))) := by
  intro options hasFn e urlF path
  constructor
  · intro h
    simp [documentLoadWithOptions, h]
  · intro h
    simp [fromAbsolutePath, h]

/-- Witness for C9 (amended): an options string with an embedded null and a
relative path. -/
theorem c9_nul_rejected_witness :
    documentLoadWithOptions (String.mk [Char.ofNat 0]) true "" =
      ([], .error .invalidString) ∧
    fromAbsolutePath (fun s => some ("file://" ++ s)) "relative/p" =
      .error (.officeError "The file path relative/p must be absolute!") := by
  have h := c9_nul_rejected_path_kind_mismatch (String.mk [Char.ofNat 0]) true
    "" (fun s => some ("file://" ++ s)) "relative/p"
  exact ⟨h.1 (by decide), h.2 (by decide)⟩

/-! ## Decimal formatting / parsing round-trip lemmas -/

/-- The digit character for `d < 10` has code `48 + d`. -/
lemma char_toNat_digit (d : Nat) (h : d < 10) :
    (Char.ofNat (48 + d)).toNat = 48 + d := by
  interval_cases d <;> decide

/-- `digitVal` recovers the digit from its character. -/
lemma digitVal_digit (d : Nat) (h : d < 10) :
    digitVal (Char.ofNat (48 + d)) = some d := by
  unfold digitVal
  rw [char_toNat_digit d h]
  rw [if_pos (by omega)]
  simp

/-- Every character `toDecCore` emits is either from the seed accumulator or
a decimal digit character. -/
lemma toDecCore_mem : ∀ (fuel n : Nat) (acc : List Char) (c : Char),
    c ∈ toDecCore fuel n acc →
    c ∈ acc ∨ ∃ d, d < 10 ∧ c = Char.ofNat (48 + d) := by
  intro fuel
  induction fuel with
  | zero => intro n acc c hc; exact Or.inl hc
  | succ fuel ih =>
    intro n acc c hc
    rw [toDecCore] at hc
    by_cases hn : n < 10
    · rw [if_pos hn] at hc
      rcases List.mem_cons.mp hc with hc | hc
      · exact Or.inr ⟨n % 10, Nat.mod_lt _ (by omega), hc⟩
      · exact Or.inl hc
    · rw [if_neg hn] at hc
      rcases ih (n / 10) _ c hc with hc | hc
      · rcases List.mem_cons.mp hc with hc | hc
        · exact Or.inr ⟨n % 10, Nat.mod_lt _ (by omega), hc⟩
        · exact Or.inl hc
      · exact Or.inr hc

/-- Every character of a formatted natural is a decimal digit character. -/
lemma natToDec_digits (n : Nat) (c : Char) (hc : c ∈ natToDec n) :
    48 ≤ c.toNat ∧ c.toNat ≤ 57 := by
  rcases toDecCore_mem (n + 1) n [] c hc with h | ⟨d, hd, rfl⟩
  · simp at h
  · rw [char_toNat_digit d hd]
    omega

/-- The separator never occurs among the digits of a formatted natural. -/
lemma natToDec_not_dot (n : Nat) : '.' ∉ natToDec n := by
  intro h
  have hb := natToDec_digits n _ h
  have : ('.' : Char).toNat = 46 := rfl
  omega

/-- Formatting always emits at least one digit. -/
lemma toDecCore_ne_nil : ∀ (fuel n : Nat) (acc : List Char),
    acc ≠ [] → toDecCore fuel n acc ≠ [] := by
  intro fuel
  induction fuel with
  | zero => intro n acc h; exact h
  | succ fuel ih =>
    intro n acc h
    rw [toDecCore]
    by_cases hn : n < 10
    · rw [if_pos hn]; simp
    · rw [if_neg hn]
      exact ih _ _ (by simp)

/-- `natToDec n` is never empty. -/
lemma natToDec_ne_nil (n : Nat) : natToDec n ≠ [] := by
  rw [natToDec, toDecCore]
  by_cases hn : n < 10
  · rw [if_pos hn]; simp
  · rw [if_neg hn]
    exact toDecCore_ne_nil _ _ _ (by simp)

/-- Parsing the digits `toDecCore` emitted continues into the accumulator
with the value folded in. -/
lemma parseDigitsAcc_toDecCore :
    ∀ (fuel n : Nat) (acc : List Char) (k : Nat), n < fuel →
    parseDigitsAcc (toDecCore fuel n acc) k =
      parseDigitsAcc acc (k * 10 ^ decLenCore fuel n + n) := by
  intro fuel
  induction fuel with
  | zero => intro n acc k h; omega
  | succ fuel ih =>
    intro n acc k h
    rw [toDecCore, decLenCore]
    by_cases hn : n < 10
    · rw [if_pos hn, if_pos hn]
      rw [parseDigitsAcc, digitVal_digit _ (Nat.mod_lt _ (by omega))]
      rw [Nat.mod_eq_of_lt hn]
      norm_num
    · rw [if_neg hn, if_neg hn]
      have hdiv : n / 10 < n := Nat.div_lt_self (by omega) (by omega)
      rw [ih (n / 10) _ k (by omega)]
      rw [parseDigitsAcc, digitVal_digit _ (Nat.mod_lt _ (by omega))]
      dsimp only
      congr 1
      calc (k * 10 ^ decLenCore fuel (n / 10) + n / 10) * 10 + n % 10
          = k * (10 ^ decLenCore fuel (n / 10) * 10) +
              (10 * (n / 10) + n % 10) := by ring
        _ = k * 10 ^ (decLenCore fuel (n / 10) + 1) + n := by
            rw [Nat.div_add_mod, pow_succ]

/-- `u32::from_str` inverts decimal formatting for in-range values. -/
lemma parseU32_natToDec (n : Nat) (h : n < u32Bound) :
    parseU32 (natToDec n) = some n := by
  obtain ⟨c, rest, hcr⟩ := List.exists_cons_of_ne_nil (natToDec_ne_nil n)
  have hc : c ≠ '+' := by
    intro hplus
    have hb := natToDec_digits n c (by rw [hcr]; exact List.mem_cons_self _ _)
    rw [hplus] at hb
    have : ('+' : Char).toNat = 43 := rfl
    omega
  have hstrip : stripPlus (natToDec n) = natToDec n := by
    rw [hcr, stripPlus, if_neg hc]
  rw [parseU32]
  simp only [hstrip]
  rw [if_neg (natToDec_ne_nil n)]
  have hp : parseDigitsAcc (natToDec n) 0 = some n := by
    rw [natToDec, parseDigitsAcc_toDecCore (n + 1) n [] 0 (by omega)]
    rw [parseDigitsAcc]
    norm_num
  rw [hp]
  dsimp only
  rw [if_pos h]

/-- `split_once('.')` finds the separator appended after dot-free text. -/
lemma splitOnceDot_append (xs ys : List Char) (hxs : '.' ∉ xs) :
    splitOnceDot (xs ++ '.' :: ys) = some (xs, ys) := by
  induction xs with
  | nil => simp [splitOnceDot]
  | cons x xs ih =>
    have hx : x ≠ '.' := fun h => hxs (by rw [h]; exact List.mem_cons_self _ _)
    rw [List.cons_append, splitOnceDot, if_neg hx,
      ih (fun h => hxs (List.mem_cons_of_mem _ h))]

/-- C8: formatting a `ProductVersion` and re-parsing it returns the identical
version (hence parsing a formatted string and re-formatting returns the
identical string), and a string whose separator is missing or either of
whose components is not a valid `u32` parses to the structured
`InvalidProductVersion` error — the parser is total, so no input panics. -/
theorem c8_version_roundtrip :
    (∀ major minor : Nat, major < u32Bound → minor < u32Bound →
      productVersionFromStr (displayProductVersion ⟨major, minor⟩) =
        .ok ⟨major, minor⟩) ∧
    (∀ major minor : Nat, major < u32Bound → minor < u32Bound →
      ∃ w, productVersionFromStr (displayProductVersion ⟨major, minor⟩) =
          .ok w ∧
        displayProductVersion w = displayProductVersion ⟨major, minor⟩) ∧
    (∀ s, splitOnceDot s = none → productVersionFromStr s = .error .invalid) ∧
    (∀ s a b, splitOnceDot s = some (a, b) →
      parseU32 a = none ∨ parseU32 b = none →
      productVersionFromStr s = .error .invalid) := by
  have part1 : ∀ major minor : Nat, major < u32Bound → minor < u32Bound →
      productVersionFromStr (displayProductVersion ⟨major, minor⟩) =
        .ok ⟨major, minor⟩ := by
    intro major minor hmaj hmin
    rw [displayProductVersion, productVersionFromStr]
    simp only []
    rw [splitOnceDot_append _ _ (natToDec_not_dot major)]
    dsimp only
    rw [parseU32_natToDec major hmaj]
    dsimp only
    rw [parseU32_natToDec minor hmin]
  refine ⟨part1, ?_, ?_, ?_⟩
  · intro major minor hmaj hmin
    exact ⟨⟨major, minor⟩, part1 major minor hmaj hmin, rfl⟩
  · intro s hs
    rw [productVersionFromStr, hs]
  · intro s a b hs hab
    rw [productVersionFromStr, hs]
    dsimp only
    rcases hab with ha | hb
    · rw [ha]
    · rw [hb]
      cases parseU32 a <;> rfl

/-- Witness for C8: the version 12.34 round-trips, and two malformed strings
fail with the structured error. -/
theorem c8_version_roundtrip_witness :
    productVersionFromStr (displayProductVersion ⟨12, 34⟩) = .ok ⟨12, 34⟩ ∧
    productVersionFromStr ['1', '2'] = .error .invalid ∧
    productVersionFromStr ['1', '.', 'x'] = .error .invalid := by
  refine ⟨c8_version_roundtrip.1 12 34 (by decide) (by decide), ?_, ?_⟩
  · exact c8_version_roundtrip.2.2.1 ['1', '2'] (by decide)
  · exact c8_version_roundtrip.2.2.2 ['1', '.', 'x'] ['1'] ['x'] (by decide)
      (Or.inr (by decide))

end LOK
